import Mathlib

/-!
Verification of the kaleidoscope session orchestrator (main.go) against its
design specification.

Shallow embedding conventions:
* A Go string is embedded as a `List Char` (named `GoStr`) wherever the code
  manipulates it character by character, and as a `List Nat` of bytes for the
  setup prompt line buffer, whose Go code indexes raw UTF-8 bytes.
* Go maps are embedded as association lists (`List (GoStr × β)`); Go's random
  map-iteration order is made explicit by passing the key order as data.
* The asynchronous `tea.Cmd` side-effect procedures (`openPanesCmd`,
  `nextCmd`, `wrapCmd`, …) are embedded as pure functions from the TUI model
  and an environment of external outcomes (tmux / git success flags) to a
  trace of external effects plus the completion message they report back.
-/

/-- Go strings handled character-wise. -/
abbrev GoStr := List Char

/-- The whitespace test used by Go's `strings.TrimSpace` / `unicode.IsSpace`,
restricted to the ASCII range. -/
def isGoSpace (c : Char) : Bool :=
  c = ' ' || c = '\t' || c = '\n' || c = Char.ofNat 11 || c = Char.ofNat 12 || c = '\r'

/-- `strings.TrimSpace`: drop whitespace from both ends. -/
def trimGo (s : GoStr) : GoStr :=
  ((s.dropWhile isGoSpace).reverse.dropWhile isGoSpace).reverse

/-- `strings.TrimPrefix(s, pre)`. -/
def trimPrefixGo (pre s : GoStr) : GoStr :=
  if List.isPrefixOf pre s then s.drop pre.length else s

/-- `strings.SplitN(s, " ", 2)`: split at the first space only. -/
def splitN2Space : GoStr → List GoStr
  | [] => [[]]
  | c :: rest =>
    if c = ' ' then [[], rest]
    else
      match splitN2Space rest with
      | [] => [[c]]
      | x :: xs => (c :: x) :: xs

/-- `strings.Join(lines, "\n")` as applied to the multi-line buffers. -/
def joinLines : List GoStr → GoStr
  | [] => []
  | [l] => l
  | l :: rest => l ++ '\n' :: joinLines rest

/-- Decimal digits of a natural number, as `fmt.Sprintf("%d", n)` prints them. -/
def natToChars (n : Nat) : GoStr := Nat.toDigits 10 n

/-- `historyMax` from main.go. -/
def historyMax : Nat := 20

/-- `pushHistorySlice` (main.go:195): prepend a new entry (most-recent-first),
drop it when empty after trimming or identical to the current head, and trim
the slice to `historyMax`. -/
def pushHistorySlice (h : List GoStr) (entry : GoStr) : List GoStr :=
  let e := trimGo entry
  if e = [] then h
  else if h.head? = some e then h
  else
    let newH := e :: h
    if historyMax < newH.length then newH.take historyMax else newH

/-- Reduction into the value range of a 64-bit two's-complement Go `int`,
`[-2^63, 2^63)`.  Go integer arithmetic is defined to wrap around. -/
def wrap64 (c : Int) : Int := (c + 2 ^ 63) % 2 ^ 64 - 2 ^ 63

/-- Selection-count increment: Space on a hovered model in the open models
dropdown runs `m.selected[p][name] = m.selected[p][name] + 1` (main.go:858)
on a Go `int`, so the addition wraps at `2^63 - 1`. -/
def spaceIncrement (c : Int) : Int := wrap64 (c + 1)

/-- Selection-count decrement: Backspace on a hovered model runs
`if m.selected[p][name] > 0 { m.selected[p][name] = m.selected[p][name] - 1 }`
(main.go:935-937), again in wrapping Go `int` arithmetic. -/
def backspaceDecrement (c : Int) : Int := if 0 < c then wrap64 (c - 1) else c

/-- One user operation on a Selection Table entry's count. -/
inductive SelOp where
  | inc
  | dec
deriving DecidableEq

/-- Apply a Selection Table operation to an entry's count. -/
def applySelOp (c : Int) : SelOp → Int
  | .inc => spaceIncrement c
  | .dec => backspaceDecrement c

/-- The number of increments in an operation sequence. -/
def incCount : List SelOp → Nat
  | [] => 0
  | SelOp.inc :: rest => incCount rest + 1
  | SelOp.dec :: rest => incCount rest

/-! ### History Store properties -/

lemma take_append_take {α : Type} (n : Nat) (a b : List α) :
    (a ++ b.take n).take n = (a ++ b).take n := by
  rw [List.take_append_eq_append_take, List.take_append_eq_append_take, List.take_take,
    Nat.min_eq_left (Nat.sub_le _ _)]

lemma pushHistorySlice_eq_take (h : List GoStr) (e : GoStr)
    (h1 : trimGo e ≠ []) (h2 : h.head? ≠ some (trimGo e)) :
    pushHistorySlice h e = (trimGo e :: h).take historyMax := by
  simp only [pushHistorySlice, if_neg h1, if_neg h2]
  split
  · rfl
  · rw [List.take_of_length_le (by omega)]

lemma head?_take_cons (e : GoStr) (h : List GoStr) :
    ((e :: h).take historyMax).head? = some e := by
  rw [show historyMax = 19 + 1 from rfl, List.take_succ_cons, List.head?_cons]

lemma foldl_push_eq (es : List GoStr) :
    ∀ h : List GoStr, (∀ e ∈ es, trimGo e = e ∧ e ≠ []) → es.Chain' (· ≠ ·) →
      (∀ e, es.head? = some e → h.head? ≠ some e) → h.length ≤ historyMax →
      es.foldl pushHistorySlice h = (es.reverse ++ h).take historyMax := by
  induction es with
  | nil =>
    intro h _ _ _ hlen
    simp [List.take_of_length_le hlen]
  | cons e rest ih =>
    intro h hall hchain hhead hlen
    have hmem : trimGo e = e ∧ e ≠ [] := hall e (by simp)
    have hstep : pushHistorySlice h e = (e :: h).take historyMax := by
      have h1 : trimGo e ≠ [] := by rw [hmem.1]; exact hmem.2
      have h2 : h.head? ≠ some (trimGo e) := by rw [hmem.1]; exact hhead e (by simp)
      rw [pushHistorySlice_eq_take h e h1 h2, hmem.1]
    rw [List.foldl_cons, hstep]
    rw [List.chain'_cons'] at hchain
    rw [ih ((e :: h).take historyMax) (fun x hx => hall x (by simp [hx]))
      hchain.2
      (by
        intro x hx
        rw [head?_take_cons]
        intro hcontra
        exact hchain.1 x hx (Option.some.inj hcontra))
      (le_trans (List.length_take_le _ _) le_rfl)]
    rw [take_append_take, List.reverse_cons, List.append_assoc]
    rfl

/-- C3: `push` trims the entry; it is a no-op on an entry that trims to empty
or equals the current most-recent element; otherwise it prepends the trimmed
entry and truncates to 20.  Consequently a repeated push leaves the length
unchanged, and pushing 25 distinct self-trimmed entries retains exactly the
most recent 20 in most-recent-first order. -/
theorem history_push_spec (h : List GoStr) (e : GoStr) (es : List GoStr)
    (hlen : es.length = 25) (hall : ∀ x ∈ es, trimGo x = x ∧ x ≠ [])
    (hdist : es.Pairwise (· ≠ ·)) :
    (pushHistorySlice h e =
      if trimGo e = [] then h
      else if h.head? = some (trimGo e) then h
      else (trimGo e :: h).take historyMax)
    ∧ (pushHistorySlice (pushHistorySlice h e) e).length = (pushHistorySlice h e).length
    ∧ es.foldl pushHistorySlice [] = es.reverse.take historyMax
    ∧ (es.foldl pushHistorySlice []).length = historyMax := by
  refine ⟨?_, ?_, ?_, ?_⟩
  · by_cases h1 : trimGo e = []
    · simp [pushHistorySlice, h1]
    · by_cases h2 : h.head? = some (trimGo e)
      · simp [pushHistorySlice, h1, h2]
      · rw [pushHistorySlice_eq_take h e h1 h2, if_neg h1, if_neg h2]
  · by_cases h1 : trimGo e = []
    · have hid : pushHistorySlice h e = h := by simp [pushHistorySlice, h1]
      rw [hid, hid]
    · by_cases h2 : h.head? = some (trimGo e)
      · have hid : pushHistorySlice h e = h := by simp [pushHistorySlice, h1, h2]
        rw [hid, hid]
      · have hstep := pushHistorySlice_eq_take h e h1 h2
        have hsecond : pushHistorySlice (pushHistorySlice h e) e =
            pushHistorySlice h e := by
          rw [hstep]
          simp [pushHistorySlice, h1, head?_take_cons]
        rw [hsecond]
  · rw [foldl_push_eq es [] hall hdist.chain' (by simp) (by simp [historyMax])]
    simp
  · rw [foldl_push_eq es [] hall hdist.chain' (by simp) (by simp [historyMax])]
    simp [List.length_take, hlen, historyMax]

/-- Witness for `history_push_spec` at a concrete input: 25 distinct numeric
entries pushed into an empty history. -/
theorem history_push_spec_witness :
    (((List.range 25).map natToChars).length = 25
      ∧ (∀ x ∈ (List.range 25).map natToChars, trimGo x = x ∧ x ≠ [])
      ∧ ((List.range 25).map natToChars).Pairwise (· ≠ ·))
    ∧ (((List.range 25).map natToChars).foldl pushHistorySlice [] =
        ((List.range 25).map natToChars).reverse.take historyMax) := by
  refine ⟨⟨by decide, by decide, by decide⟩, ?_⟩
  exact (history_push_spec [] ['a'] ((List.range 25).map natToChars)
    (by decide) (by decide) (by decide)).2.2.1

/-! ### Selection Table count invariant -/

lemma wrap64_range (x : Int) : -(2 ^ 63) ≤ wrap64 x ∧ wrap64 x < 2 ^ 63 := by
  unfold wrap64
  omega

lemma wrap64_eq_self (x : Int) (h1 : -(2 ^ 63) ≤ x) (h2 : x < 2 ^ 63) :
    wrap64 x = x := by
  unfold wrap64
  omega

lemma wrap64_add_left (a k : Int) : wrap64 (wrap64 a + k) = wrap64 (a + k) := by
  unfold wrap64
  omega

/-- C5 (amended): starting from a nonnegative count, a sequence of Space and
Backspace operations keeps the count nonnegative (and below the running
increment budget) as long as the starting count plus the number of increments
stays below `2^63`, so that the wrapping `int` addition never overflows. -/
theorem selection_count_nonneg (c : Int) (ops : List SelOp) (h : 0 ≤ c)
    (hbound : c + incCount ops ≤ 2 ^ 63 - 1) :
    0 ≤ ops.foldl applySelOp c ∧ ops.foldl applySelOp c ≤ c + incCount ops := by
  induction ops generalizing c with
  | nil =>
    simp only [List.foldl_nil, incCount]
    omega
  | cons op rest ih =>
    cases op
    · simp only [incCount] at hbound ⊢
      rw [List.foldl_cons]
      simp only [applySelOp, spaceIncrement]
      rw [wrap64_eq_self (c + 1) (by omega) (by omega)]
      obtain ⟨ha, hb⟩ := ih (c + 1) (by omega) (by omega)
      exact ⟨ha, by omega⟩
    · simp only [incCount] at hbound ⊢
      rw [List.foldl_cons]
      simp only [applySelOp, backspaceDecrement]
      by_cases hc : 0 < c
      · rw [if_pos hc, wrap64_eq_self (c - 1) (by omega) (by omega)]
        obtain ⟨ha, hb⟩ := ih (c - 1) (by omega) (by omega)
        exact ⟨ha, by omega⟩
      · rw [if_neg hc]
        exact ih c h hbound

/-- Witness for `selection_count_nonneg` at a concrete input. -/
theorem selection_count_nonneg_witness :
    ((0 : Int) ≤ 0
      ∧ (0 : Int) + incCount [SelOp.inc, SelOp.dec, SelOp.dec, SelOp.inc] ≤ 2 ^ 63 - 1)
    ∧ (0 ≤ [SelOp.inc, SelOp.dec, SelOp.dec, SelOp.inc].foldl applySelOp 0
      ∧ [SelOp.inc, SelOp.dec, SelOp.dec, SelOp.inc].foldl applySelOp 0 ≤
          (0 : Int) + incCount [SelOp.inc, SelOp.dec, SelOp.dec, SelOp.inc]) :=
  ⟨⟨by decide, by decide⟩,
    selection_count_nonneg 0 [SelOp.inc, SelOp.dec, SelOp.dec, SelOp.inc]
      (by decide) (by decide)⟩

lemma foldl_replicate_inc (n : Nat) :
    ∀ c : Int, -(2 ^ 63) ≤ c → c < 2 ^ 63 →
      (List.replicate n SelOp.inc).foldl applySelOp c = wrap64 (c + n) := by
  induction n with
  | zero =>
    intro c h1 h2
    simp only [List.replicate, List.foldl_nil, Nat.cast_zero, add_zero]
    exact (wrap64_eq_self c h1 h2).symm
  | succ k ih =>
    intro c h1 h2
    rw [List.replicate_succ, List.foldl_cons]
    simp only [applySelOp, spaceIncrement]
    rw [ih (wrap64 (c + 1)) (wrap64_range (c + 1)).1 (wrap64_range (c + 1)).2,
      wrap64_add_left]
    congr 1
    push_cast
    ring

/-- C5 counterexample: applying `2^63` Space increments to a count of 0 wraps
the Go `int` to `-2^63`, so the count is not nonnegative after every finite
sequence of operations. -/
theorem selection_count_overflow_counterexample :
    (List.replicate (2 ^ 63) SelOp.inc).foldl applySelOp 0 = -(2 ^ 63)
    ∧ ¬ (0 ≤ (List.replicate (2 ^ 63) SelOp.inc).foldl applySelOp 0) := by
  have h := foldl_replicate_inc (2 ^ 63) 0 (by norm_num) (by norm_num)
  have h2 : (List.replicate (2 ^ 63) SelOp.inc).foldl applySelOp 0 = -(2 ^ 63) := by
    rw [h]
    unfold wrap64
    norm_num
  exact ⟨h2, by rw [h2]; norm_num⟩

/-! ### Autocomplete Engine -/

/-- The fixed slash-command vocabulary (main.go:2864). -/
def slashCommands : List GoStr := ["/bail".toList, "/next".toList, "/wrap".toList]

/-- `getAutocompleteOptions` (main.go:2824-2895).  `worktreeLabels` is the
key order in which Go happens to iterate `m.modelToWorktree`, and `selModels`
is `m.selectedModels()`, the fallback candidate list. -/
def getAutocompleteOptions (worktreeLabels selModels : List GoStr) (p : GoStr) : List GoStr :=
  if p.length = 0 then []
  else if p.headD ' ' = '/' then
    if List.isPrefixOf "/next ".toList p || List.isPrefixOf "/wrap ".toList p then
      let searchPre :=
        if 6 < p.length then
          match splitN2Space p with
          | [_, arg] => arg
          | _ => []
        else []
      let candidates := if worktreeLabels.isEmpty then selModels else worktreeLabels
      candidates.filter (fun c => List.isPrefixOf searchPre c)
    else
      slashCommands.filter (fun c => List.isPrefixOf p c)
  else if p.headD ' ' = '@' then
    let candidates := if worktreeLabels.isEmpty then selModels else worktreeLabels
    let searchPre := p.drop 1
    (candidates.filter (fun n => List.isPrefixOf searchPre n)).map (fun n => '@' :: n)
  else []

/-- C7: with provisioned instance labels `{sonnet, sonnet-2, gpt}` (in any
map-iteration order), the prefix `@son` yields exactly the candidates
`@sonnet` and `@sonnet-2`, and `/ne` yields exactly `/next`. -/
theorem autocomplete_examples (wl : List GoStr)
    (hperm : wl.Perm ["sonnet".toList, "sonnet-2".toList, "gpt".toList]) :
    (getAutocompleteOptions wl [] "@son".toList).Perm
        ["@sonnet".toList, "@sonnet-2".toList]
    ∧ getAutocompleteOptions wl [] "/ne".toList = ["/next".toList] := by
  constructor
  · have hne : wl.isEmpty = false := by
      have := hperm.length_eq
      cases wl with
      | nil => simp at this
      | cons a l => rfl
    simp only [getAutocompleteOptions, hne]
    norm_num
    exact (hperm.filter _).map _
  · have h1 : getAutocompleteOptions wl [] "/ne".toList =
        slashCommands.filter (fun c => List.isPrefixOf "/ne".toList c) := by
      simp [getAutocompleteOptions]
    rw [h1]
    decide

/-! ### Prompt Line Buffer (byte-level) -/

/-- The setup prompt buffer `m.input` with its cursor (main.go:303-308).
Go strings are indexed by raw bytes (`line[:col]`, `col += len(r)`), so each
row is embedded as its list of UTF-8 bytes. -/
structure LineBuffer where
  rows : List (List Nat)
  row : Nat
  col : Nat
deriving DecidableEq

/-- The UTF-8 encoding of a Unicode code point, as produced by Go's
`string(rune)` conversion. -/
def utf8Bytes (c : Nat) : List Nat :=
  if c < 0x80 then [c]
  else if c < 0x800 then [0xC0 + c / 64, 0x80 + c % 64]
  else if c < 0x10000 then [0xE0 + c / 4096, 0x80 + (c / 64) % 64, 0x80 + c % 64]
  else [0xF0 + c / 262144, 0x80 + (c / 4096) % 64, 0x80 + (c / 64) % 64, 0x80 + c % 64]

/-- Rune insertion into the prompt (main.go:1114-1116):
`m.input[row] = line[:col] + r + line[col:]; m.cursor.col += len(r)`
with `len` counting bytes. -/
def insertBytes (b : LineBuffer) (s : List Nat) : LineBuffer :=
  let line := b.rows.getD b.row []
  { b with
    rows := b.rows.set b.row (line.take b.col ++ s ++ line.drop b.col),
    col := b.col + s.length }

/-- Inserting one rune = inserting its UTF-8 bytes. -/
def insertRune (b : LineBuffer) (c : Nat) : LineBuffer := insertBytes b (utf8Bytes c)

/-- Prompt backspace (main.go:942-954): delete the byte left of the cursor,
or merge into the previous row when at column 0. -/
def backspaceChar (b : LineBuffer) : LineBuffer :=
  if 0 < b.col then
    let line := b.rows.getD b.row []
    { b with
      rows := b.rows.set b.row (line.take (b.col - 1) ++ line.drop b.col),
      col := b.col - 1 }
  else if 0 < b.row then
    let prev := b.rows.getD (b.row - 1) []
    let cur := b.rows.getD b.row []
    { b with
      rows := ((b.rows.set (b.row - 1) (prev ++ cur)).eraseIdx b.row),
      row := b.row - 1,
      col := prev.length }
  else b

/-- The cursor invariant the Update loop maintains (spec 3: Line Buffer). -/
def ValidBuffer (b : LineBuffer) : Prop :=
  b.row < b.rows.length ∧ b.col ≤ (b.rows.getD b.row []).length

instance (b : LineBuffer) : Decidable (ValidBuffer b) := by
  unfold ValidBuffer; infer_instance

/-- Insert each rune of `cs` in order. -/
def insertRunes (b : LineBuffer) (cs : List Nat) : LineBuffer :=
  cs.foldl insertRune b

lemma set_getD_self {α : Type} (l : List α) (n : Nat) (d : α) (h : n < l.length) :
    l.set n (l.getD n d) = l := by
  apply List.ext_getElem
  · simp
  · intro i h1 h2
    by_cases hi : i = n
    · subst hi
      simp [List.getElem_set_self, List.getD, List.getElem?_eq_getElem, h]
    · rw [List.getElem_set_ne (by omega)]

lemma getD_set_self {α : Type} (l : List α) (n : Nat) (a d : α) (h : n < l.length) :
    (l.set n a).getD n d = a := by
  simp [List.getD, List.getElem?_set_self, h]

lemma take_splice {α : Type} (l : List α) (x : α) (col : Nat) (h : col ≤ l.length) :
    (l.take col ++ x :: l.drop col).take col = l.take col := by
  rw [List.take_append_eq_append_take]
  simp [List.length_take, Nat.min_eq_left h, List.take_take]

lemma drop_splice {α : Type} (l : List α) (x : α) (col : Nat) (h : col ≤ l.length) :
    (l.take col ++ x :: l.drop col).drop (col + 1) = l.drop col := by
  rw [List.drop_append_eq_append_drop]
  have h1 : (l.take col).length = col := by simp [List.length_take, Nat.min_eq_left h]
  rw [h1]
  have h2 : (l.take col).drop (col + 1) = [] := by
    apply List.drop_eq_nil_of_le
    omega
  rw [h2, show col + 1 - col = 1 from by omega]
  simp

lemma insertBytes_valid (b : LineBuffer) (s : List Nat) (hv : ValidBuffer b) :
    ValidBuffer (insertBytes b s) := by
  obtain ⟨rows, row, col⟩ := b
  obtain ⟨hrow, hcol⟩ := hv
  simp only [ValidBuffer, insertBytes] at hrow hcol ⊢
  refine ⟨by simpa using hrow, ?_⟩
  rw [getD_set_self _ _ _ _ hrow]
  simp only [List.length_append, List.length_take, List.length_drop]
  omega

lemma backspace_insert_single (b : LineBuffer) (x : Nat) (hv : ValidBuffer b) :
    backspaceChar (insertBytes b [x]) = b := by
  obtain ⟨rows, row, col⟩ := b
  obtain ⟨hrow, hcol⟩ := hv
  simp only [ValidBuffer] at hrow hcol
  set l := rows.getD row [] with hl
  have hins : insertBytes ⟨rows, row, col⟩ [x] =
      ⟨rows.set row (l.take col ++ x :: l.drop col), row, col + 1⟩ := by
    simp only [insertBytes, List.append_assoc, List.singleton_append,
      List.length_singleton, ← hl]
  rw [hins]
  have hrow2 : row < (rows.set row (l.take col ++ x :: l.drop col)).length := by
    simpa using hrow
  have hline : (rows.set row (l.take col ++ x :: l.drop col)).getD row [] =
      l.take col ++ x :: l.drop col := getD_set_self _ _ _ _ hrow
  simp only [backspaceChar, Nat.zero_lt_succ, if_pos, hline,
    Nat.add_sub_cancel]
  rw [take_splice l x col hcol, drop_splice l x col hcol, List.take_append_drop,
    List.set_set]
  rw [hl, set_getD_self _ _ _ hrow]

/-- C6 (amended): for a valid buffer and a sequence of single-byte (ASCII)
runes, inserting the runes one at a time and then backspacing the same number
of times restores the original rows and cursor. -/
theorem lineBuffer_roundtrip (b : LineBuffer) (cs : List Nat)
    (hv : ValidBuffer b) (hascii : ∀ c ∈ cs, c < 128) :
    backspaceChar^[cs.length] (insertRunes b cs) = b := by
  induction cs generalizing b with
  | nil => rfl
  | cons c rest ih =>
    have hc : c < 128 := hascii c (by simp)
    have hbytes : utf8Bytes c = [c] := by
      unfold utf8Bytes
      rw [if_pos (by omega)]
    have hstep : insertRunes b (c :: rest) = insertRunes (insertRune b c) rest := rfl
    rw [hstep, List.length_cons, Function.iterate_succ_apply',
      ih (insertRune b c) (by rw [insertRune, hbytes]; exact insertBytes_valid b [c] hv)
        (fun x hx => hascii x (by simp [hx]))]
    rw [insertRune, hbytes]
    exact backspace_insert_single b c hv

/-- Witness for `lineBuffer_roundtrip`: typing `hi` into a fresh buffer and
backspacing twice restores it. -/
theorem lineBuffer_roundtrip_witness :
    (ValidBuffer ⟨[[]], 0, 0⟩ ∧ ∀ c ∈ [104, 105], c < 128)
    ∧ backspaceChar^[2] (insertRunes ⟨[[]], 0, 0⟩ [104, 105]) = ⟨[[]], 0, 0⟩ :=
  ⟨⟨by decide, by decide⟩,
    lineBuffer_roundtrip ⟨[[]], 0, 0⟩ [104, 105] (by decide) (by decide)⟩

/-- C6 counterexample: inserting the two-byte rune `é` (U+00E9) once and
backspacing once does not restore the buffer — the cursor byte-advance (2)
and the single-byte backspace disagree, leaving a dangling `0xC3` byte. -/
theorem lineBuffer_roundtrip_counterexample :
    ValidBuffer ⟨[[]], 0, 0⟩
    ∧ backspaceChar^[[233].length] (insertRunes ⟨[[]], 0, 0⟩ [233]) ≠ ⟨[[]], 0, 0⟩
    ∧ backspaceChar^[[233].length] (insertRunes ⟨[[]], 0, 0⟩ [233]) =
        ⟨[[195]], 0, 1⟩ := by
  refine ⟨by decide, ?_, ?_⟩ <;> decide

/-! ### Session state machine -/

/-- The four screens (main.go:286-291). -/
inductive Screen where
  | setup
  | iteration
  | progress
  | newTask
deriving DecidableEq

/-- Focus targets (main.go:275-281). -/
inductive Focus where
  | branch
  | task
  | prompt
  | provider
  | models
deriving DecidableEq

/-- Association-list lookup, embedding Go map indexing `m[k]`. -/
def lookupA {β : Type} : List (GoStr × β) → GoStr → Option β
  | [], _ => none
  | (k, v) :: rest, key => if k = key then some v else lookupA rest key

/-- Association-list update, embedding Go map assignment `m[k] = v`. -/
def setA {β : Type} : List (GoStr × β) → GoStr → β → List (GoStr × β)
  | [], key, v => [(key, v)]
  | (k, w) :: rest, key, v =>
    if k = key then (k, v) :: rest else (k, w) :: setA rest key v

/-- The slice of the Bubble Tea `model` struct (main.go:299-396) that the
session lifecycle claims depend on. -/
structure Model where
  screen : Screen
  branch : GoStr
  task : GoStr
  input : List GoStr
  providers : List GoStr
  providerIndex : Nat
  iterationInput : List GoStr
  iterRow : Nat
  iterCol : Nat
  iterationHistoryIndex : Int
  draftIterationInput : Option (List GoStr)
  autocompleteActive : Bool
  autocompleteOptions : List GoStr
  newTaskFocus : Focus
  history : List GoStr
  createdPanes : List GoStr
  createdWorktrees : List GoStr
  modelToPaneID : List (GoStr × GoStr)
  modelToWorktree : List (GoStr × GoStr)
  modelPrompts : List (GoStr × List GoStr)
  instanceProvider : List (GoStr × GoStr)
  instanceBaseModel : List (GoStr × GoStr)
  setDefault : Bool
  progressMsg : GoStr
deriving DecidableEq

/-- `currentProvider` (main.go:495-500). -/
def Model.currentProvider (m : Model) : GoStr :=
  if m.providers.length = 0 then [] else m.providers.getD m.providerIndex []

/-- The `tea.Cmd` an Enter submission in the Iteration screen can return. -/
inductive IterCmd where
  | none
  | bail
  | next (label : GoStr)
  | wrap (label : GoStr)
  | sendToPane (paneID label prompt : GoStr)
deriving DecidableEq

/-- The completion messages the orchestration actions report back
(main.go:1609-1615). -/
inductive CompleteMsg where
  | bailComplete
  | nextComplete
  | wrapComplete
  | cleanupComplete
deriving DecidableEq

/-- How `Update` (main.go:648-665) consumes a completion message: returns
the new model plus whether `tea.Quit` is issued. -/
def handleCompleteMsg (m : Model) : CompleteMsg → Model × Bool
  | .bailComplete => (m, true)
  | .nextComplete =>
    ({ m with
        iterationInput := [[]], iterRow := 0, iterCol := 0,
        iterationHistoryIndex := -1, draftIterationInput := Option.none,
        autocompleteActive := false, autocompleteOptions := [],
        screen := Screen.newTask, newTaskFocus := Focus.task }, false)
  | .wrapComplete => (m, true)
  | .cleanupComplete => (m, true)

/-- Literal-newline insertion into the iteration buffer (main.go:1210-1215). -/
def insertNewlineIter (m : Model) : Model :=
  let line := m.iterationInput.getD m.iterRow []
  let before := line.take m.iterCol
  let after := line.drop m.iterCol
  let inp := m.iterationInput.set m.iterRow before
  { m with
    iterationInput := inp.take (m.iterRow + 1) ++ after :: inp.drop (m.iterRow + 1),
    iterRow := m.iterRow + 1,
    iterCol := 0 }

/-- `progressMsg` text for /bail (main.go:1170). -/
def cleanupProgressText : GoStr := "Cleaning up panes, worktrees, and branches...".toList

/-- `progressMsg` text for /next and /wrap (main.go:1178/1187). -/
def mergeProgressText (name : GoStr) : GoStr :=
  "Merging and pushing changes from ".toList ++ name ++ "...".toList

/-- The submit path of the Enter handler in `updateIteration`
(main.go:1166-1215), taken when no autocomplete popup is active: parse the
trimmed joined buffer as `/bail`, `/next <label>`, `/wrap <label>`,
`@<label> <text>`, or fall back to inserting a literal newline. -/
def submitIteration (m : Model) : Model × IterCmd :=
  let currentLine := trimGo (joinLines m.iterationInput)
  if currentLine = "/bail".toList then
    ({ m with screen := Screen.progress, progressMsg := cleanupProgressText }, IterCmd.bail)
  else
    let nextName := trimGo (trimPrefixGo "/next ".toList currentLine)
    if List.isPrefixOf "/next ".toList currentLine && !nextName.isEmpty then
      ({ m with screen := Screen.progress, progressMsg := mergeProgressText nextName },
        IterCmd.next nextName)
    else
      let wrapName := trimGo (trimPrefixGo "/wrap ".toList currentLine)
      if List.isPrefixOf "/wrap ".toList currentLine && !wrapName.isEmpty then
        ({ m with screen := Screen.progress, progressMsg := mergeProgressText wrapName },
          IterCmd.wrap wrapName)
      else
        let atResult : Option (Model × IterCmd) :=
          if List.isPrefixOf "@".toList currentLine then
            match splitN2Space currentLine with
            | [first, prompt] =>
              let name := trimPrefixGo "@".toList first
              match lookupA m.modelToPaneID name with
              | some paneID =>
                some
                  ({ m with
                      modelPrompts := setA m.modelPrompts name
                        ((lookupA m.modelPrompts name).getD [] ++ [prompt]),
                      history := pushHistorySlice m.history prompt,
                      iterationInput := [[]], iterRow := 0, iterCol := 0 },
                    IterCmd.sendToPane paneID name prompt)
              | Option.none => Option.none
            | _ => Option.none
          else Option.none
        match atResult with
        | some r => r
        | Option.none => (insertNewlineIter m, IterCmd.none)

/-! ### Orchestration actions -/

/-- External effects (tmux and git invocations) the orchestration actions
perform, in issue order. -/
inductive Eff where
  | displayMsg
  | saveDefaultsEff
  | incrementChoice (provider base : GoStr)
  | gitCheckoutNew (branch : GoStr)
  | gitCheckout (branch : GoStr)
  | gitAdd (worktree : GoStr)
  | gitCommit (worktree : GoStr) (message : GoStr)
  | gitMerge (worktree : GoStr)
  | gitPush (branch : GoStr)
  | killPane (paneID : GoStr)
  | removeWorktree (worktree : GoStr)
  | deleteBranch (worktree : GoStr)
  | splitWindow (label : GoStr)
  | selectLayout
  | selectPane
deriving DecidableEq

/-- A warning `display-message` issued only when the guarded call failed. -/
def warnIf (ok : Bool) : List Eff := if ok then [] else [Eff.displayMsg]

/-- Outcomes of the external calls `nextCmd`/`wrapCmd` make. -/
structure VcsEnv where
  insideTmux : Bool
  choiceOk : Bool
  cwdOk : Bool
  addOk : Bool
  commitOk : Bool
  checkoutOk : Bool
  mergeOk : Bool
  pushOk : Bool
deriving DecidableEq

/-- The numbered prompt-log lines of the commit message
(main.go:1778-1783), 1-based. -/
def numberPrompts : Nat → List GoStr → GoStr
  | _, [] => []
  | i, p :: rest => natToChars (i + 1) ++ ". ".toList ++ p ++ '\n' :: numberPrompts (i + 1) rest

/-- The commit message enumerating the instance's full prompt log
(main.go:1776-1783). -/
def commitMessageFor (name : GoStr) (prompts : List GoStr) : GoStr :=
  let base := "Changes from ".toList ++ name
  if 0 < prompts.length then base ++ "\n\n".toList ++ numberPrompts 0 prompts else base

/-- The cleanup loops shared by `bailCmd`/`nextCmd`/`wrapCmd`/`cleanupCmd`:
kill every created pane, then remove every worktree and delete its branch
(main.go:1814-1825). -/
def cleanupEffs (m : Model) : List Eff :=
  m.createdPanes.map Eff.killPane
    ++ m.createdWorktrees.foldr (fun w acc => Eff.removeWorktree w :: Eff.deleteBranch w :: acc) []

/-- `nextCmd` (main.go:1745-1831) as effect trace plus completion message. -/
def nextCmdModel (m : Model) (env : VcsEnv) (modelName : GoStr) : List Eff × CompleteMsg :=
  if !env.insideTmux then ([], CompleteMsg.bailComplete)
  else
    match lookupA m.modelToWorktree modelName with
    | Option.none => ([Eff.displayMsg], CompleteMsg.bailComplete)
    | some worktree =>
      let prov0 := (lookupA m.instanceProvider modelName).getD []
      let base0 := (lookupA m.instanceBaseModel modelName).getD []
      let prov := if prov0.isEmpty || base0.isEmpty then m.currentProvider else prov0
      let base := if prov0.isEmpty || base0.isEmpty then modelName else base0
      let t0 := Eff.incrementChoice prov base :: warnIf env.choiceOk
      if !env.cwdOk then (t0 ++ [Eff.displayMsg], CompleteMsg.bailComplete)
      else
        let msg := commitMessageFor modelName ((lookupA m.modelPrompts modelName).getD [])
        let t1 := t0 ++ [Eff.gitAdd worktree]
        if !env.addOk then (t1 ++ [Eff.displayMsg], CompleteMsg.bailComplete)
        else
          let t2 := t1 ++ Eff.gitCommit worktree msg :: warnIf env.commitOk
          let featureBranch := trimGo m.branch
          let t3 := t2 ++ [Eff.gitCheckout featureBranch]
          if !env.checkoutOk then (t3 ++ [Eff.displayMsg], CompleteMsg.bailComplete)
          else
            let t4 := t3 ++ [Eff.gitMerge worktree]
            if !env.mergeOk then (t4 ++ [Eff.displayMsg], CompleteMsg.bailComplete)
            else
              let t5 := t4 ++ Eff.gitPush featureBranch :: warnIf env.pushOk
              (t5 ++ cleanupEffs m ++ [Eff.displayMsg], CompleteMsg.nextComplete)

/-- `wrapCmd` (main.go:1833-1919): identical to `nextCmd` except for the
completion message it reports. -/
def wrapCmdModel (m : Model) (env : VcsEnv) (modelName : GoStr) : List Eff × CompleteMsg :=
  if !env.insideTmux then ([], CompleteMsg.bailComplete)
  else
    match lookupA m.modelToWorktree modelName with
    | Option.none => ([Eff.displayMsg], CompleteMsg.bailComplete)
    | some worktree =>
      let prov0 := (lookupA m.instanceProvider modelName).getD []
      let base0 := (lookupA m.instanceBaseModel modelName).getD []
      let prov := if prov0.isEmpty || base0.isEmpty then m.currentProvider else prov0
      let base := if prov0.isEmpty || base0.isEmpty then modelName else base0
      let t0 := Eff.incrementChoice prov base :: warnIf env.choiceOk
      if !env.cwdOk then (t0 ++ [Eff.displayMsg], CompleteMsg.bailComplete)
      else
        let msg := commitMessageFor modelName ((lookupA m.modelPrompts modelName).getD [])
        let t1 := t0 ++ [Eff.gitAdd worktree]
        if !env.addOk then (t1 ++ [Eff.displayMsg], CompleteMsg.bailComplete)
        else
          let t2 := t1 ++ Eff.gitCommit worktree msg :: warnIf env.commitOk
          let featureBranch := trimGo m.branch
          let t3 := t2 ++ [Eff.gitCheckout featureBranch]
          if !env.checkoutOk then (t3 ++ [Eff.displayMsg], CompleteMsg.bailComplete)
          else
            let t4 := t3 ++ [Eff.gitMerge worktree]
            if !env.mergeOk then (t4 ++ [Eff.displayMsg], CompleteMsg.bailComplete)
            else
              let t5 := t4 ++ Eff.gitPush featureBranch :: warnIf env.pushOk
              (t5 ++ cleanupEffs m ++ [Eff.displayMsg], CompleteMsg.wrapComplete)

/-- An effect is destructive when it kills a pane, removes a worktree, or
deletes a branch. -/
def isDestructive : Eff → Bool
  | .killPane _ => true
  | .removeWorktree _ => true
  | .deleteBranch _ => true
  | _ => false

/-! ### Launch -/

/-- Outcomes of the external calls `openPanesCmd` makes. `paneOk i` and
`paneId i` give the outcome and pane id of the i-th `split-window` attempt;
`repo` is the basename of the working directory. -/
structure LaunchEnv where
  insideTmux : Bool
  origPaneOk : Bool
  repo : GoStr
  paneOk : Nat → Bool
  paneId : Nat → GoStr

/-- `panesOpenedMsg` (main.go:1599-1607); `err` records whether an error
value is attached. -/
structure PanesMsg where
  count : Nat
  err : Bool
  paneIDs : List GoStr
  worktrees : List GoStr
  modelNames : List GoStr
  providers : List GoStr
  baseModels : List GoStr
deriving DecidableEq

/-- `strings.Join(parts, "_")`. -/
def joinUnders : List GoStr → GoStr
  | [] => []
  | [p] => p
  | p :: rest => p ++ '_' :: joinUnders rest

/-- `identifierFor` (main.go:247-270): repo + branch + task + model name,
skipping empty parts, joined with underscores. -/
def identifierForG (repo branch task modelName : GoStr) : GoStr :=
  joinUnders (List.filter (fun p => !p.isEmpty) [repo, trimGo branch, trimGo task, trimGo modelName])

/-- Accumulated results of the per-label launch loop (main.go:1656-1698). -/
structure LoopOut where
  effs : List Eff
  opened : Nat
  lastErr : Bool
  paneIDs : List GoStr
  worktrees : List GoStr
  modelNames : List GoStr
  providers : List GoStr
  baseModels : List GoStr

/-- The per-label loop of `openPanesCmd` (main.go:1665-1698): assign each
base model a unique instance label (`base`, `base-2`, `base-3`, … counted in
launch order), derive the worktree identifier, and attempt a `split-window`;
failures are recorded but do not abort the remaining attempts. -/
def openPanesLoop (env : LaunchEnv) (m : Model) :
    List GoStr → Nat → (GoStr → Nat) → LoopOut
  | [], _, _ => ⟨[], 0, false, [], [], [], [], []⟩
  | baseName :: rest, i, counts =>
    let seq := counts baseName + 1
    let instanceLabel := if 1 < seq then baseName ++ '-' :: natToChars seq else baseName
    let id := identifierForG env.repo m.branch m.task instanceLabel
    let counts2 := fun x => if x = baseName then seq else counts x
    let restOut := openPanesLoop env m rest (i + 1) counts2
    if env.paneOk i then
      { effs := Eff.splitWindow instanceLabel :: restOut.effs,
        opened := restOut.opened + 1,
        lastErr := restOut.lastErr,
        paneIDs := env.paneId i :: restOut.paneIDs,
        worktrees := id :: restOut.worktrees,
        modelNames := instanceLabel :: restOut.modelNames,
        providers := m.currentProvider :: restOut.providers,
        baseModels := baseName :: restOut.baseModels }
    else
      { restOut with effs := Eff.splitWindow instanceLabel :: restOut.effs, lastErr := true }

/-- `openPanesCmd` (main.go:1621-1711) as effect trace plus the completion
message it reports. -/
def openPanesModel (models : List GoStr) (m : Model) (env : LaunchEnv) :
    List Eff × PanesMsg :=
  let pre := if m.setDefault then [Eff.saveDefaultsEff, Eff.displayMsg] else []
  if !env.insideTmux then
    (pre ++ [Eff.displayMsg], ⟨0, true, [], [], [], [], []⟩)
  else
    let branchName := trimGo m.branch
    if branchName.isEmpty then (pre, ⟨0, true, [], [], [], [], []⟩)
    else
      let t1 := pre ++ [Eff.gitCheckoutNew branchName, Eff.gitCheckout branchName]
      if !env.origPaneOk then (t1, ⟨0, true, [], [], [], [], []⟩)
      else
        let out := openPanesLoop env m models 0 (fun _ => 0)
        (t1 ++ out.effs ++ [Eff.selectLayout, Eff.selectPane, Eff.displayMsg],
          ⟨out.opened, out.lastErr, out.paneIDs, out.worktrees, out.modelNames,
            out.providers, out.baseModels⟩)

/-- The instance-registration loop of the `panesOpenedMsg` handler
(main.go:675-691). -/
def registerLoop (msg : PanesMsg) (initialPrompt : GoStr) :
    Nat → List GoStr → Model → Model
  | _, [], m => m
  | i, label :: rest, m =>
    let m1 := { m with
      modelToPaneID := setA m.modelToPaneID label (msg.paneIDs.getD i []),
      modelToWorktree := setA m.modelToWorktree label (msg.worktrees.getD i []),
      modelPrompts := setA m.modelPrompts label [initialPrompt] }
    let m2 :=
      if i < msg.providers.length then
        { m1 with instanceProvider := setA m1.instanceProvider label (msg.providers.getD i []) }
      else m1
    let m3 :=
      if i < msg.baseModels.length then
        { m2 with instanceBaseModel := setA m2.instanceBaseModel label (msg.baseModels.getD i []) }
      else m2
    registerLoop msg initialPrompt (i + 1) rest m3

/-- The `panesOpenedMsg` case of `Update` (main.go:666-693): only a
completion with no error and a positive success count transitions to the
Iteration screen and registers instances; anything else leaves the model
untouched. -/
def handlePanesOpened (m : Model) (msg : PanesMsg) : Model :=
  if !msg.err && 0 < msg.count then
    let initialPrompt := trimGo (joinLines m.input)
    let m1 := { m with
      screen := Screen.iteration,
      createdPanes := m.createdPanes ++ msg.paneIDs,
      createdWorktrees := m.createdWorktrees ++ msg.worktrees,
      history := pushHistorySlice m.history initialPrompt }
    registerLoop msg initialPrompt 0 msg.modelNames m1
  else m

/-- `selectedModels` (main.go:2748-2763): expand the Selection Table for the
current provider into a list with each model name repeated `count` times, in
catalog order. -/
def selectedModelsG : List GoStr → (GoStr → Nat) → List GoStr
  | [], _ => []
  | name :: rest, sel => List.replicate (sel name) name ++ selectedModelsG rest sel

/-- The spec's wording of label expansion (spec 4.5 step 1), for comparison
with the loop in `openPanesCmd`: each `(model, count)` pair yields `count`
labels, the first the bare model name and the i-th appending `-i`. -/
def labelFor (base : GoStr) (seq : Nat) : GoStr :=
  if 1 < seq then base ++ '-' :: natToChars seq else base

/-- The labels the spec prescribes for a whole catalog. -/
def expectedLabels : List GoStr → (GoStr → Nat) → List GoStr
  | [], _ => []
  | name :: rest, sel =>
    (List.range (sel name)).map (fun i => labelFor name (i + 1)) ++ expectedLabels rest sel

/-- The label generator of the launch loop, isolated from the pane-opening
bookkeeping. -/
def genLabels : (GoStr → Nat) → List GoStr → List GoStr
  | _, [] => []
  | counts, b :: rest =>
    labelFor b (counts b + 1) :: genLabels (fun x => if x = b then counts b + 1 else counts x) rest

/-! ### Follow-up dispatch (Iteration screen submit) -/

lemma lookupA_setA_self {β : Type} (l : List (GoStr × β)) (k : GoStr) (v : β) :
    lookupA (setA l k v) k = some v := by
  induction l with
  | nil => simp [setA, lookupA]
  | cons kv rest ih =>
    obtain ⟨a, w⟩ := kv
    by_cases h : a = k
    · simp [setA, h, lookupA]
    · simp [setA, h, lookupA, ih]

lemma lookupA_setA_ne {β : Type} (l : List (GoStr × β)) (k q : GoStr) (v : β)
    (h : q ≠ k) :
    lookupA (setA l k v) q = lookupA l q := by
  induction l with
  | nil =>
    simp only [setA, lookupA]
    rw [if_neg (fun hk => h hk.symm)]
  | cons kv rest ih =>
    obtain ⟨a, w⟩ := kv
    by_cases ha : a = k
    · subst ha
      simp only [setA, if_pos rfl, lookupA]
      rw [if_neg (fun haq => h haq.symm), if_neg (fun haq => h haq.symm)]
    · simp only [setA, if_neg ha, lookupA]
      by_cases haq : a = q
      · simp [haq]
      · simp [haq, ih]

lemma splitN2Space_noSpace_append (l t : GoStr) (h : ∀ c ∈ l, c ≠ ' ') :
    splitN2Space (l ++ ' ' :: t) = [l, t] := by
  induction l with
  | nil => simp [splitN2Space]
  | cons c rest ih =>
    have hc : c ≠ ' ' := h c (by simp)
    rw [List.cons_append]
    simp only [splitN2Space, if_neg hc]
    rw [ih (fun x hx => h x (by simp [hx]))]

lemma submitIteration_at (m : Model) (label text : GoStr)
    (hspace : ∀ c ∈ label, c ≠ ' ')
    (hline : trimGo (joinLines m.iterationInput) = '@' :: (label ++ ' ' :: text)) :
    submitIteration m =
      match lookupA m.modelToPaneID label with
      | some paneID =>
        ({ m with
            modelPrompts := setA m.modelPrompts label
              ((lookupA m.modelPrompts label).getD [] ++ [text]),
            history := pushHistorySlice m.history text,
            iterationInput := [[]], iterRow := 0, iterCol := 0 },
          IterCmd.sendToPane paneID label text)
      | Option.none => (insertNewlineIter m, IterCmd.none) := by
  have h1 : ('@' :: (label ++ ' ' :: text)) ≠ "/bail".toList := by
    intro hcontra
    exact absurd (List.cons.inj hcontra).1 (by decide)
  have h2 : List.isPrefixOf "/next ".toList ('@' :: (label ++ ' ' :: text)) = false := rfl
  have h3 : List.isPrefixOf "/wrap ".toList ('@' :: (label ++ ' ' :: text)) = false := rfl
  have h4 : List.isPrefixOf "@".toList ('@' :: (label ++ ' ' :: text)) = true := by
    simp [List.isPrefixOf]
  have h5 : splitN2Space ('@' :: (label ++ ' ' :: text)) = ['@' :: label, text] := by
    have hs := splitN2Space_noSpace_append ('@' :: label) text
      (by
        intro c hc
        rcases List.mem_cons.mp hc with hh | hh
        · subst hh; decide
        · exact hspace c hh)
    simpa using hs
  have h6 : trimPrefixGo "@".toList ('@' :: label) = label := by
    simp [trimPrefixGo, List.isPrefixOf]
  simp only [submitIteration, hline, h2, h3, h4, h5, h6, if_neg h1, Bool.false_and,
    Bool.and_self, if_false, ite_false, ite_true]
  rw [if_neg (by simp), if_neg (by simp)]
  cases hlook : lookupA m.modelToPaneID label with
  | none => simp
  | some paneID => simp

/-- C8: submitting `@<label> <text>` in the Iteration screen is rejected when
`label` has no pane in the Instance Registry — no prompt log and no History
Store mutation; when `label` is registered, `text` is appended to exactly that
instance's prompt log, pushed to the History Store, and forwarded to its
pane. -/
theorem followUp_registry (m : Model) (label text : GoStr)
    (hspace : ∀ c ∈ label, c ≠ ' ')
    (hline : trimGo (joinLines m.iterationInput) = '@' :: (label ++ ' ' :: text)) :
    (lookupA m.modelToPaneID label = Option.none →
      (submitIteration m).1.modelPrompts = m.modelPrompts
      ∧ (submitIteration m).1.history = m.history)
    ∧ (∀ paneID, lookupA m.modelToPaneID label = some paneID →
      lookupA (submitIteration m).1.modelPrompts label =
        some ((lookupA m.modelPrompts label).getD [] ++ [text])
      ∧ (∀ other, other ≠ label →
          lookupA (submitIteration m).1.modelPrompts other = lookupA m.modelPrompts other)
      ∧ (submitIteration m).1.history = pushHistorySlice m.history text
      ∧ (submitIteration m).2 = IterCmd.sendToPane paneID label text) := by
  constructor
  · intro hnone
    rw [submitIteration_at m label text hspace hline, hnone]
    exact ⟨rfl, rfl⟩
  · intro paneID hsome
    rw [submitIteration_at m label text hspace hline, hsome]
    refine ⟨lookupA_setA_self _ _ _, fun other hne => lookupA_setA_ne _ _ _ _ hne, rfl, rfl⟩

/-! ### Concrete session fixtures -/

/-- A session in the Iteration screen with two registered instances
(`sonnet`, `gpt`) and `/next sonnet` typed into the command buffer. -/
def mIter : Model where
  screen := Screen.iteration
  branch := "feat".toList
  task := "task1".toList
  input := [[]]
  providers := ["github-copilot".toList, "OpenAI".toList]
  providerIndex := 0
  iterationInput := ["/next sonnet".toList]
  iterRow := 0
  iterCol := 12
  iterationHistoryIndex := -1
  draftIterationInput := Option.none
  autocompleteActive := false
  autocompleteOptions := []
  newTaskFocus := Focus.prompt
  history := []
  createdPanes := ["%1".toList, "%2".toList]
  createdWorktrees := ["wt-sonnet".toList, "wt-gpt".toList]
  modelToPaneID := [("sonnet".toList, "%1".toList), ("gpt".toList, "%2".toList)]
  modelToWorktree := [("sonnet".toList, "wt-sonnet".toList), ("gpt".toList, "wt-gpt".toList)]
  modelPrompts := [("sonnet".toList, ["do it".toList])]
  instanceProvider := [("sonnet".toList, "github-copilot".toList)]
  instanceBaseModel := [("sonnet".toList, "sonnet".toList)]
  setDefault := false
  progressMsg := []

/-- `mIter` with `/wrap sonnet` typed instead. -/
def mWrapIter : Model := { mIter with iterationInput := ["/wrap sonnet".toList] }

/-- `mIter` with `@sonnet hi` typed instead. -/
def mFollowIter : Model := { mIter with iterationInput := ["@sonnet hi".toList] }

/-- An environment in which every external call succeeds. -/
def envAllOk : VcsEnv := ⟨true, true, true, true, true, true, true, true⟩

/-- An environment in which everything succeeds except the merge. -/
def envMergeFail : VcsEnv := { envAllOk with mergeOk := false }

/-- Witness for `followUp_registry` at `@sonnet hi` with `sonnet`
registered. -/
theorem followUp_registry_witness :
    ((∀ c ∈ "sonnet".toList, c ≠ ' ')
      ∧ trimGo (joinLines mFollowIter.iterationInput) =
          '@' :: ("sonnet".toList ++ ' ' :: "hi".toList))
    ∧ ((lookupA mFollowIter.modelToPaneID "sonnet".toList = Option.none →
        (submitIteration mFollowIter).1.modelPrompts = mFollowIter.modelPrompts
        ∧ (submitIteration mFollowIter).1.history = mFollowIter.history)
      ∧ (∀ paneID, lookupA mFollowIter.modelToPaneID "sonnet".toList = some paneID →
        lookupA (submitIteration mFollowIter).1.modelPrompts "sonnet".toList =
          some ((lookupA mFollowIter.modelPrompts "sonnet".toList).getD [] ++ ["hi".toList])
        ∧ (∀ other, other ≠ "sonnet".toList →
            lookupA (submitIteration mFollowIter).1.modelPrompts other =
              lookupA mFollowIter.modelPrompts other)
        ∧ (submitIteration mFollowIter).1.history =
            pushHistorySlice mFollowIter.history "hi".toList
        ∧ (submitIteration mFollowIter).2 =
            IterCmd.sendToPane paneID "sonnet".toList "hi".toList)) :=
  ⟨⟨by decide, by decide⟩,
    followUp_registry mFollowIter "sonnet".toList "hi".toList (by decide) (by decide)⟩

/-- C1 (code bug): `/next sonnet` dispatches the Next merge action, whose
completion message `nextCompleteMsg` makes `Update` transition to the NewTask
screen without quitting, while `/wrap sonnet` dispatches the equivalent merge
whose completion message `wrapCompleteMsg` quits — exactly the opposite of
the documented behaviour. -/
theorem next_wrap_completions_swapped :
    (submitIteration mIter).2 = IterCmd.next "sonnet".toList
    ∧ (submitIteration mIter).1.screen = Screen.progress
    ∧ (nextCmdModel mIter envAllOk "sonnet".toList).2 = CompleteMsg.nextComplete
    ∧ (handleCompleteMsg mIter CompleteMsg.nextComplete).1.screen = Screen.newTask
    ∧ (handleCompleteMsg mIter CompleteMsg.nextComplete).2 = false
    ∧ (submitIteration mWrapIter).2 = IterCmd.wrap "sonnet".toList
    ∧ (wrapCmdModel mWrapIter envAllOk "sonnet".toList).2 = CompleteMsg.wrapComplete
    ∧ (handleCompleteMsg mWrapIter CompleteMsg.wrapComplete).2 = true
    ∧ (handleCompleteMsg mWrapIter CompleteMsg.wrapComplete).1 = mWrapIter := by
  decide

/-- C10: `/next` or `/wrap` on a label absent from the Instance Registry only
displays an error and reports `bailCompleteMsg`, which quits the session with
the model untouched — no commit, merge, push, or cleanup effect is issued. -/
theorem unknown_label_quits (m : Model) (env : VcsEnv) (label : GoStr)
    (htmux : env.insideTmux = true)
    (hmiss : lookupA m.modelToWorktree label = Option.none) :
    nextCmdModel m env label = ([Eff.displayMsg], CompleteMsg.bailComplete)
    ∧ wrapCmdModel m env label = ([Eff.displayMsg], CompleteMsg.bailComplete)
    ∧ handleCompleteMsg m CompleteMsg.bailComplete = (m, true) := by
  refine ⟨?_, ?_, rfl⟩ <;> simp [nextCmdModel, wrapCmdModel, htmux, hmiss]

/-- Witness for `unknown_label_quits` at unregistered label `claude`. -/
theorem unknown_label_quits_witness :
    (envAllOk.insideTmux = true
      ∧ lookupA mIter.modelToWorktree "claude".toList = Option.none)
    ∧ (nextCmdModel mIter envAllOk "claude".toList =
        ([Eff.displayMsg], CompleteMsg.bailComplete)
      ∧ wrapCmdModel mIter envAllOk "claude".toList =
          ([Eff.displayMsg], CompleteMsg.bailComplete)
      ∧ handleCompleteMsg mIter CompleteMsg.bailComplete = (mIter, true)) :=
  ⟨⟨rfl, by decide⟩, unknown_label_quits mIter envAllOk "claude".toList rfl (by decide)⟩

/-! ### Cleanup reachability during Next / Wrap -/

lemma mem_warnIf (e : Eff) (b : Bool) (h : e ∈ warnIf b) : e = Eff.displayMsg := by
  cases b
  · simpa [warnIf] using h
  · simp [warnIf] at h

lemma mem_cleanup_kill (m : Model) (p : GoStr) (hp : p ∈ m.createdPanes) :
    Eff.killPane p ∈ cleanupEffs m := by
  simp only [cleanupEffs, List.mem_append]
  exact Or.inl (List.mem_map_of_mem _ hp)

lemma mem_foldr_wt (l : List GoStr) (acc : List Eff) (w : GoStr) (hw : w ∈ l) :
    Eff.removeWorktree w ∈
        l.foldr (fun x a => Eff.removeWorktree x :: Eff.deleteBranch x :: a) acc
    ∧ Eff.deleteBranch w ∈
        l.foldr (fun x a => Eff.removeWorktree x :: Eff.deleteBranch x :: a) acc := by
  induction l with
  | nil => simp at hw
  | cons x rest ih =>
    rcases List.mem_cons.mp hw with h | h
    · subst h; simp
    · obtain ⟨h1, h2⟩ := ih h
      simp [h1, h2]

lemma mem_cleanup_remove (m : Model) (w : GoStr) (hw : w ∈ m.createdWorktrees) :
    Eff.removeWorktree w ∈ cleanupEffs m := by
  simp only [cleanupEffs, List.mem_append]
  exact Or.inr (mem_foldr_wt _ _ _ hw).1

lemma mem_cleanup_delete (m : Model) (w : GoStr) (hw : w ∈ m.createdWorktrees) :
    Eff.deleteBranch w ∈ cleanupEffs m := by
  simp only [cleanupEffs, List.mem_append]
  exact Or.inr (mem_foldr_wt _ _ _ hw).2

/-- C2 (amended): during Next or Wrap on a registered label, once the
feature-branch checkout *and the merge* have succeeded, Cleanup of all
instances is reached regardless of the push outcome; a failed checkout aborts
before any pane is killed or any worktree or branch removed, and likewise a
failed merge aborts before Cleanup.  (The original claim promised Cleanup
even after a failed merge; the counterexample shows a merge failure returns
before Cleanup.) -/
theorem next_wrap_cleanup_guard (m : Model) (env : VcsEnv) (label worktree : GoStr)
    (htmux : env.insideTmux = true)
    (hreg : lookupA m.modelToWorktree label = some worktree)
    (hcwd : env.cwdOk = true) (hadd : env.addOk = true) :
    (env.checkoutOk = true → env.mergeOk = true →
      (∀ p ∈ m.createdPanes,
        Eff.killPane p ∈ (nextCmdModel m env label).1
        ∧ Eff.killPane p ∈ (wrapCmdModel m env label).1)
      ∧ (∀ w ∈ m.createdWorktrees,
        (Eff.removeWorktree w ∈ (nextCmdModel m env label).1
          ∧ Eff.deleteBranch w ∈ (nextCmdModel m env label).1)
        ∧ (Eff.removeWorktree w ∈ (wrapCmdModel m env label).1
          ∧ Eff.deleteBranch w ∈ (wrapCmdModel m env label).1)))
    ∧ (env.checkoutOk = false →
      (∀ e ∈ (nextCmdModel m env label).1, isDestructive e = false)
      ∧ (∀ e ∈ (wrapCmdModel m env label).1, isDestructive e = false))
    ∧ (env.mergeOk = false →
      (∀ e ∈ (nextCmdModel m env label).1, isDestructive e = false)
      ∧ (∀ e ∈ (wrapCmdModel m env label).1, isDestructive e = false)) := by
  refine ⟨?_, ?_, ?_⟩
  · intro hco hmo
    constructor
    · intro p hp
      have hx := mem_cleanup_kill m p hp
      constructor <;>
        · simp [nextCmdModel, wrapCmdModel, htmux, hreg, hcwd, hadd, hco, hmo,
            List.mem_append]
          tauto
    · intro w hw
      have hr := mem_cleanup_remove m w hw
      have hd := mem_cleanup_delete m w hw
      refine ⟨⟨?_, ?_⟩, ?_, ?_⟩ <;>
        · simp [nextCmdModel, wrapCmdModel, htmux, hreg, hcwd, hadd, hco, hmo,
            List.mem_append]
          tauto
  · intro hco
    constructor <;>
      · cases hch : env.choiceOk <;> cases hcm : env.commitOk <;>
          simp [nextCmdModel, wrapCmdModel, htmux, hreg, hcwd, hadd, hco, hch, hcm,
            warnIf, isDestructive]
  · intro hmo
    constructor <;>
      · cases hch : env.choiceOk <;> cases hcm : env.commitOk <;>
          cases hco : env.checkoutOk <;>
          simp [nextCmdModel, wrapCmdModel, htmux, hreg, hcwd, hadd, hmo, hch, hcm,
            hco, warnIf, isDestructive]

/-- Witness for `next_wrap_cleanup_guard` on the two-instance session with
every git call succeeding. -/
theorem next_wrap_cleanup_guard_witness :
    (envAllOk.insideTmux = true
      ∧ lookupA mIter.modelToWorktree "sonnet".toList = some "wt-sonnet".toList
      ∧ envAllOk.cwdOk = true ∧ envAllOk.addOk = true)
    ∧ ((envAllOk.checkoutOk = true → envAllOk.mergeOk = true →
      (∀ p ∈ mIter.createdPanes,
        Eff.killPane p ∈ (nextCmdModel mIter envAllOk "sonnet".toList).1
        ∧ Eff.killPane p ∈ (wrapCmdModel mIter envAllOk "sonnet".toList).1)
      ∧ (∀ w ∈ mIter.createdWorktrees,
        (Eff.removeWorktree w ∈ (nextCmdModel mIter envAllOk "sonnet".toList).1
          ∧ Eff.deleteBranch w ∈ (nextCmdModel mIter envAllOk "sonnet".toList).1)
        ∧ (Eff.removeWorktree w ∈ (wrapCmdModel mIter envAllOk "sonnet".toList).1
          ∧ Eff.deleteBranch w ∈ (wrapCmdModel mIter envAllOk "sonnet".toList).1)))
    ∧ (envAllOk.checkoutOk = false →
      (∀ e ∈ (nextCmdModel mIter envAllOk "sonnet".toList).1, isDestructive e = false)
      ∧ (∀ e ∈ (wrapCmdModel mIter envAllOk "sonnet".toList).1, isDestructive e = false))
    ∧ (envAllOk.mergeOk = false →
      (∀ e ∈ (nextCmdModel mIter envAllOk "sonnet".toList).1, isDestructive e = false)
      ∧ (∀ e ∈ (wrapCmdModel mIter envAllOk "sonnet".toList).1, isDestructive e = false))) :=
  ⟨⟨rfl, by decide, rfl, rfl⟩,
    next_wrap_cleanup_guard mIter envAllOk "sonnet".toList "wt-sonnet".toList
      rfl (by decide) rfl rfl⟩

/-- C2 counterexample: with the feature-branch checkout succeeding but the
merge failing, `nextCmd` returns before Cleanup — no pane is killed and
nothing destructive happens, contradicting "Cleanup is always reached once
the checkout has succeeded, regardless of merge failure". -/
theorem next_cleanup_merge_fail_counterexample :
    envMergeFail.checkoutOk = true
    ∧ Eff.gitCheckout "feat".toList ∈ (nextCmdModel mIter envMergeFail "sonnet".toList).1
    ∧ "%1".toList ∈ mIter.createdPanes
    ∧ Eff.killPane "%1".toList ∉ (nextCmdModel mIter envMergeFail "sonnet".toList).1
    ∧ (∀ e ∈ (nextCmdModel mIter envMergeFail "sonnet".toList).1, isDestructive e = false)
    ∧ (∀ e ∈ (wrapCmdModel mIter envMergeFail "sonnet".toList).1, isDestructive e = false) := by
  decide

/-! ### Launch validation and screen transition -/

lemma registerLoop_screen (msg : PanesMsg) (p : GoStr) :
    ∀ (labels : List GoStr) (i : Nat) (m : Model),
      (registerLoop msg p i labels m).screen = m.screen := by
  intro labels
  induction labels with
  | nil => intro i m; rfl
  | cons label rest ih =>
    intro i m
    simp only [registerLoop]
    rw [ih]
    split <;> split <;> rfl

/-- A fresh session still in the Setup screen. -/
def mSetup : Model where
  screen := Screen.setup
  branch := "feat".toList
  task := "t".toList
  input := ["hi".toList]
  providers := ["github-copilot".toList, "OpenAI".toList]
  providerIndex := 0
  iterationInput := [[]]
  iterRow := 0
  iterCol := 0
  iterationHistoryIndex := -1
  draftIterationInput := Option.none
  autocompleteActive := false
  autocompleteOptions := []
  newTaskFocus := Focus.task
  history := []
  createdPanes := []
  createdWorktrees := []
  modelToPaneID := []
  modelToWorktree := []
  modelPrompts := []
  instanceProvider := []
  instanceBaseModel := []
  setDefault := false
  progressMsg := []

/-- `mSetup` with an empty branch name. -/
def mEmptyBranch : Model := { mSetup with branch := [] }

/-- A launch environment where only the first `split-window` succeeds. -/
def envPartial : LaunchEnv :=
  ⟨true, true, "repo".toList, fun i => decide (i = 0), fun i => '%' :: natToChars i⟩

/-- A completion message reporting zero provisioned instances. -/
def msgZero : PanesMsg := ⟨0, true, [], [], [], [], []⟩

/-- A completion message reporting one clean success. -/
def msgOne : PanesMsg :=
  ⟨1, false, ["%0".toList], ["wt".toList], ["a".toList], ["p".toList], ["a".toList]⟩

/-- C9 (amended): a launch with an empty (whitespace-only) branch name
reports zero successes with an error and opens no pane; a completion with
zero successes — or with a recorded error — leaves the model (hence the Setup
screen and the empty registry) unchanged; a completion with at least one
success and no error transitions to the Iteration screen. -/
theorem launch_validation (m : Model) (env : LaunchEnv) (models : List GoStr)
    (msg : PanesMsg) :
    (trimGo m.branch = [] → env.insideTmux = true →
      (openPanesModel models m env).2.count = 0
      ∧ (openPanesModel models m env).2.err = true
      ∧ ∀ e ∈ (openPanesModel models m env).1, ∀ lbl, e ≠ Eff.splitWindow lbl)
    ∧ (msg.count = 0 → handlePanesOpened m msg = m)
    ∧ (msg.err = true → handlePanesOpened m msg = m)
    ∧ (msg.err = false → 0 < msg.count →
        (handlePanesOpened m msg).screen = Screen.iteration) := by
  refine ⟨?_, ?_, ?_, ?_⟩
  · intro hbr htmux
    have hbe : (trimGo m.branch).isEmpty = true := by simp [hbr]
    have hred : openPanesModel models m env =
        ((if m.setDefault then [Eff.saveDefaultsEff, Eff.displayMsg] else []),
          ⟨0, true, [], [], [], [], []⟩) := by
      simp [openPanesModel, htmux, hbe]
    rw [hred]
    refine ⟨rfl, rfl, ?_⟩
    intro e he lbl
    revert he
    cases m.setDefault
    · simp
    · intro he
      rcases List.mem_cons.mp he with h | h
      · simp [h]
      · rcases List.mem_cons.mp h with h2 | h2
        · simp [h2]
        · simp at h2
  · intro hc
    simp [handlePanesOpened, hc]
  · intro he
    simp [handlePanesOpened, he]
  · intro he hc
    simp only [handlePanesOpened, he, hc, Bool.not_false, Bool.true_and,
      decide_eq_true_eq, if_pos]
    rw [registerLoop_screen]

/-- Witness for `launch_validation`: empty branch refusal, zero-success
no-op, and clean-success transition at concrete inputs. -/
theorem launch_validation_witness :
    (trimGo mEmptyBranch.branch = [] ∧ envPartial.insideTmux = true
      ∧ msgZero.count = 0 ∧ msgOne.err = false ∧ 0 < msgOne.count)
    ∧ ((openPanesModel [] mEmptyBranch envPartial).2.count = 0
      ∧ (openPanesModel [] mEmptyBranch envPartial).2.err = true
      ∧ ∀ e ∈ (openPanesModel [] mEmptyBranch envPartial).1,
          ∀ lbl, e ≠ Eff.splitWindow lbl)
    ∧ handlePanesOpened mEmptyBranch msgZero = mEmptyBranch
    ∧ (handlePanesOpened mEmptyBranch msgOne).screen = Screen.iteration :=
  ⟨⟨by decide, rfl, rfl, rfl, by decide⟩,
    (launch_validation mEmptyBranch envPartial [] msgZero).1 (by decide) rfl,
    (launch_validation mEmptyBranch envPartial [] msgZero).2.1 rfl,
    (launch_validation mEmptyBranch envPartial [] msgOne).2.2.2 rfl (by decide)⟩

/-- C9 counterexample: a launch of two instances in which the second
`split-window` fails completes with one success *and* a recorded error; the
handler then leaves the session in the Setup screen, refuting "a completion
with ≥1 success transitions to the Iteration screen". -/
theorem launch_partial_failure_counterexample :
    (openPanesModel ["a".toList, "b".toList] mSetup envPartial).2.count = 1
    ∧ (openPanesModel ["a".toList, "b".toList] mSetup envPartial).2.err = true
    ∧ handlePanesOpened mSetup
        (openPanesModel ["a".toList, "b".toList] mSetup envPartial).2 = mSetup
    ∧ mSetup.screen = Screen.setup := by
  decide

/-! ### Label expansion at Launch -/

lemma openPanesLoop_modelNames (env : LaunchEnv) (m : Model)
    (hok : env.paneOk = fun _ => true) :
    ∀ (models : List GoStr) (i : Nat) (counts : GoStr → Nat),
      (openPanesLoop env m models i counts).modelNames = genLabels counts models := by
  intro models
  induction models with
  | nil => intro i counts; rfl
  | cons b rest ih =>
    intro i counts
    simp only [openPanesLoop, genLabels, labelFor, hok, ite_true, if_true]
    rw [ih]

lemma genLabels_congr_mem (l : List GoStr) (c1 c2 : GoStr → Nat)
    (h : ∀ x ∈ l, c1 x = c2 x) :
    genLabels c1 l = genLabels c2 l := by
  induction l generalizing c1 c2 with
  | nil => rfl
  | cons b rest ih =>
    have hb := h b (by simp)
    simp only [genLabels, hb]
    congr 1
    apply ih
    intro x hx
    by_cases hxb : x = b
    · simp [hxb]
    · simp only [if_neg hxb]
      exact h x (List.mem_cons_of_mem _ hx)

lemma genLabels_replicate (b : GoStr) (c : Nat) :
    ∀ (counts : GoStr → Nat) (rest : List GoStr),
      genLabels counts (List.replicate c b ++ rest) =
        (List.range c).map (fun i => labelFor b (counts b + i + 1))
          ++ genLabels (fun x => if x = b then counts b + c else counts x) rest := by
  induction c with
  | zero =>
    intro counts rest
    simp only [List.replicate, List.nil_append, List.range_zero, List.map_nil]
    exact genLabels_congr_mem rest counts _
      (fun x _ => by by_cases hxb : x = b <;> simp [hxb])
  | succ n ih =>
    intro counts rest
    rw [List.replicate_succ, List.cons_append]
    simp only [genLabels]
    rw [ih]
    rw [List.range_succ_eq_map, List.map_cons, List.map_map, List.cons_append]
    congr 1
    congr 1
    · apply List.map_congr_left
      intro i _
      simp only [Function.comp_apply]
      congr 1
      simp only [if_true, eq_self_iff_true]
      omega
    · apply genLabels_congr_mem
      intro x _
      by_cases hxb : x = b
      · simp only [hxb, eq_self_iff_true, if_true]
        omega
      · simp only [if_neg hxb]

lemma selectedModels_mem (rest : List GoStr) (sel : GoStr → Nat) (x : GoStr)
    (hx : x ∈ selectedModelsG rest sel) : x ∈ rest := by
  induction rest with
  | nil => simp [selectedModelsG] at hx
  | cons b r ih =>
    simp only [selectedModelsG, List.mem_append] at hx
    rcases hx with h | h
    · exact List.mem_cons.mpr (Or.inl (List.eq_of_mem_replicate h))
    · exact List.mem_cons.mpr (Or.inr (ih h))

lemma genLabels_selected (catalog : List GoStr) (sel : GoStr → Nat)
    (hnodup : catalog.Nodup) :
    genLabels (fun _ => 0) (selectedModelsG catalog sel) = expectedLabels catalog sel := by
  induction catalog with
  | nil => rfl
  | cons b rest ih =>
    simp only [selectedModelsG, expectedLabels]
    rw [genLabels_replicate]
    congr 1
    · apply List.map_congr_left
      intro i _
      norm_num
    · rw [genLabels_congr_mem (selectedModelsG rest sel) _ (fun _ => 0) ?hpt,
        ih (List.Nodup.of_cons hnodup)]
      case hpt =>
        intro x hx
        have hxr : x ∈ rest := selectedModels_mem rest sel x hx
        have hxb : x ≠ b := fun hcontra =>
          (List.nodup_cons.mp hnodup).1 (hcontra ▸ hxr)
        simp [hxb]

/-- C4: Launch expands the Selection Table, in catalog order, into one label
per selected unit: for each model the first label is the bare name and the
i-th appends `-i`, exactly as the spec's `expectedLabels` formula
prescribes. -/
theorem launch_label_expansion (catalog : List GoStr) (sel : GoStr → Nat)
    (m : Model) (env : LaunchEnv)
    (hnodup : catalog.Nodup) (htmux : env.insideTmux = true)
    (hbranch : trimGo m.branch ≠ []) (horig : env.origPaneOk = true)
    (hok : env.paneOk = fun _ => true) :
    (openPanesModel (selectedModelsG catalog sel) m env).2.modelNames =
      expectedLabels catalog sel := by
  have hbe : (trimGo m.branch).isEmpty = false := by
    cases hcase : trimGo m.branch
    · exact absurd hcase hbranch
    · rfl
  simp only [openPanesModel, htmux, horig, hbe, Bool.not_true, Bool.not_false,
    if_false, ite_false]
  rw [openPanesLoop_modelNames env m hok]
  exact genLabels_selected catalog sel hnodup

/-- The Selection Table `{A: 2, B: 1}`. -/
def selAB : GoStr → Nat :=
  fun n => if n = "A".toList then 2 else if n = "B".toList then 1 else 0

/-- A launch environment where every `split-window` succeeds. -/
def envLaunchOk : LaunchEnv :=
  ⟨true, true, "repo".toList, fun _ => true, fun i => '%' :: natToChars i⟩

/-- Witness for `launch_label_expansion`: `{A: 2, B: 1}` deterministically
expands to `[A, A-2, B]`. -/
theorem launch_label_expansion_witness :
    (["A".toList, "B".toList].Nodup
      ∧ envLaunchOk.insideTmux = true ∧ trimGo mSetup.branch ≠ []
      ∧ envLaunchOk.origPaneOk = true ∧ envLaunchOk.paneOk = fun _ => true)
    ∧ (openPanesModel (selectedModelsG ["A".toList, "B".toList] selAB)
        mSetup envLaunchOk).2.modelNames =
          ["A".toList, "A-2".toList, "B".toList] :=
  ⟨⟨by decide, rfl, by decide, rfl, rfl⟩,
    (launch_label_expansion ["A".toList, "B".toList] selAB mSetup envLaunchOk
      (by decide) rfl (by decide) rfl rfl).trans (by decide)⟩

/-- Witness for `autocomplete_examples` at the identity iteration order. -/
theorem autocomplete_examples_witness :
    (["sonnet".toList, "sonnet-2".toList, "gpt".toList] : List GoStr).Perm
        ["sonnet".toList, "sonnet-2".toList, "gpt".toList]
    ∧ ((getAutocompleteOptions ["sonnet".toList, "sonnet-2".toList, "gpt".toList]
          [] "@son".toList).Perm ["@sonnet".toList, "@sonnet-2".toList]
      ∧ getAutocompleteOptions ["sonnet".toList, "sonnet-2".toList, "gpt".toList]
          [] "/ne".toList = ["/next".toList]) :=
  ⟨List.Perm.refl _, autocomplete_examples _ (List.Perm.refl _)⟩
